import Mathlib

/-!
# Verification of the GitHub organization/repository/user report generator

A shallow embedding of `src/github_report.py` and proofs about its
fetch-and-resolve pipeline: paginated retrieval with rate-limit backoff,
permission-level classification, the two-stage email-resolution heuristic,
and the CSV report orchestration.

HTTP interactions are modelled by response values supplied as functions of
the request parameters (one `PageResponse` per page for the paginated
endpoints); each modelled operation returns both its computed value and the
ordered trace of observable actions it performs (requests issued, sleeps,
error logs, rows written).  The unbounded `while True` pagination loops are
modelled with an explicit fuel parameter; theorems about them carry a
sufficient-fuel hypothesis.
-/

namespace GithubReport

/-- An endpoint of the remote API together with the query parameters the
script sends, mirroring the URLs and `params` dicts in the source. -/
inductive Endpoint where
  | userOrgs : Endpoint
  | orgRepos (org : String) (page perPage : Nat) : Endpoint
  | repoCollaborators (org repo : String) (page perPage : Nat) (affiliation : String) : Endpoint
  | userProfile (username : String) : Endpoint
  | userEvents (username : String) : Endpoint
deriving DecidableEq, Repr

/-- An observable action performed by the script, in order of occurrence. -/
inductive RunEvent where
  | request (ep : Endpoint) : RunEvent
  | sleepFor (seconds : Nat) : RunEvent
  | logError (status : Nat) (body : String) : RunEvent
  | writeRow (row : List String) : RunEvent
deriving DecidableEq, Repr

/-- A response to one page request of a paginated endpoint: HTTP status,
decoded JSON item list, response body (as printed on error), and the
`X-RateLimit-Remaining` header when present (already parsed by `int`). -/
structure PageResponse (α : Type) where
  status : Nat
  items : List α
  body : String
  rateRemaining : Option Int
deriving DecidableEq, Repr

/-- The rate-limit test of the source:
the header X-RateLimit-Remaining is present and its int value is below 10. -/
def lowRate {α : Type} (r : PageResponse α) : Bool :=
  match r.rateRemaining with
  | some n => decide (n < 10)
  | none => false

/-- The `while True` pagination loop shared verbatim by `get_repos_for_org`
and `get_collaborators_for_repo` (source lines 36-58 and 69-91): request a
page, on a non-200 status log and return the accumulator, on an empty item
list return the accumulator, otherwise extend the accumulator, sleep 60
when the rate-limit header is below 10, and continue with the next page.
`mk` builds the request event for a given page number.  Fuel bounds the
recursion; with fuel exhausted the accumulator is returned. -/
def fetchLoop {α : Type} (mk : Nat → RunEvent) (server : Nat → PageResponse α) :
    Nat → Nat → List α → List α × List RunEvent
  | 0, _, acc => (acc, [])
  | fuel + 1, page, acc =>
    let r := server page
    if r.status ≠ 200 then
      (acc, [mk page, RunEvent.logError r.status r.body])
    else if r.items.isEmpty then
      (acc, [mk page])
    else
      let rest := fetchLoop mk server fuel (page + 1) (acc ++ r.items)
      (rest.1, (mk page :: (if lowRate r then [RunEvent.sleepFor 60] else [])) ++ rest.2)

/-- A repository record; only `name` is consumed by the script. -/
structure Repo where
  name : String
deriving DecidableEq, Repr

/-- The capability-flag set attached to a collaborator.  The source reads
the flags with `permissions.get(flag, False)`, so a missing key and an
explicit `False` coincide; both are modelled as `false`. -/
structure Permissions where
  admin : Bool
  maintain : Bool
  push : Bool
  triage : Bool
  pull : Bool
deriving DecidableEq, Repr

/-- A collaborator record: login plus the `permissions` flag set. -/
structure Collaborator where
  login : String
  permissions : Permissions
deriving DecidableEq, Repr

/-- `get_repos_for_org` (source lines 30-60): paginated repository listing
for one organization, `per_page=100`, pages numbered from 1. -/
def get_repos_for_org (org : String) (server : Nat → PageResponse Repo) (fuel : Nat) :
    List Repo × List RunEvent :=
  fetchLoop (fun p => RunEvent.request (Endpoint.orgRepos org p 100)) server fuel 1 []

/-- `get_collaborators_for_repo` (source lines 63-93): paginated
collaborator listing for one repository, `per_page=100`,
`affiliation=all`, pages numbered from 1. -/
def get_collaborators_for_repo (org repo : String)
    (server : Nat → PageResponse Collaborator) (fuel : Nat) :
    List Collaborator × List RunEvent :=
  fetchLoop (fun p => RunEvent.request (Endpoint.repoCollaborators org repo p 100 "all"))
    server fuel 1 []

/-- `get_permission_level` (source lines 128-141): fixed-precedence
classification of a capability-flag set. -/
def get_permission_level (p : Permissions) : String :=
  if p.admin then "Admin"
  else if p.maintain then "Maintain"
  else if p.push then "Write"
  else if p.triage then "Triage"
  else if p.pull then "Read"
  else "Unknown"

/-- Python truthiness of an optional string (`None` and `""` are falsy). -/
def truthy : Option String → Bool
  | none => false
  | some s => s ≠ ""

/-- The Python endswith test: the character sequence of the suffix is a
suffix of the character sequence of the string. -/
def strEndsWith (s suffix : String) : Bool :=
  decide (suffix.data <:+ s.data)

/-- A commit author object; `email` is `none` when the key is absent. -/
structure CommitAuthor where
  email : Option String
deriving DecidableEq, Repr

/-- A commit record; `author` is `none` when the key is absent. -/
structure Commit where
  author : Option CommitAuthor
deriving DecidableEq, Repr

/-- A push-event payload; `commits` is `none` when the key is absent
(the source reads it with a get defaulting to the empty list). -/
structure EventPayload where
  commits : Option (List Commit)
deriving DecidableEq, Repr

/-- A public timeline event: its `type` string and optional `payload`. -/
structure Event where
  type : String
  payload : Option EventPayload
deriving DecidableEq, Repr

/-- Response to `GET /users/{username}`: status and the optional profile
`email` field. -/
structure UserResponse where
  status : Nat
  email : Option String
deriving DecidableEq, Repr

/-- Response to `GET /users/{username}/events/public`. -/
structure EventsResponse where
  status : Nat
  events : List Event
deriving DecidableEq, Repr

/-- Outcome of scanning the timeline: either an early `return email`
(a non-masked address was found) or the final value of the mutable
`email` variable after the loops complete. -/
inductive ScanRes where
  | found (e : String) : ScanRes
  | cont (email : Option String) : ScanRes
deriving DecidableEq, Repr

/-- The inner commit loop of `get_user_email` (source lines 119-123):
for each commit with a truthy author email, return it if it does not end
in `noreply.github.com`, else overwrite the `email` variable and continue. -/
def scanCommits : List Commit → Option String → ScanRes
  | [], email => ScanRes.cont email
  | c :: cs, email =>
    match c.author with
    | none => scanCommits cs email
    | some a =>
      if truthy a.email then
        let e := a.email.getD ""
        if !strEndsWith e "noreply.github.com" then ScanRes.found e
        else scanCommits cs (some e)
      else scanCommits cs email

/-- The outer event loop of `get_user_email` (source lines 116-123):
only events whose type equals PushEvent and that have a payload key are
inspected. -/
def scanEvents : List Event → Option String → ScanRes
  | [], email => ScanRes.cont email
  | ev :: evs, email =>
    if ev.type = "PushEvent" then
      match ev.payload with
      | some p =>
        match scanCommits (p.commits.getD []) email with
        | ScanRes.found e => ScanRes.found e
        | ScanRes.cont email2 => scanEvents evs email2
      | none => scanEvents evs email
    else scanEvents evs email

/-- `get_user_email` (source lines 96-125): profile lookup, then on a falsy
profile email a scan of the public event timeline; returns the resolved
email together with the trace of requests issued. -/
def get_user_email (username : String) (profileResp : UserResponse)
    (eventsResp : EventsResponse) : String × List RunEvent :=
  if profileResp.status ≠ 200 then
    ("Not available", [RunEvent.request (Endpoint.userProfile username)])
  else
    let email := profileResp.email
    if truthy email then
      (email.getD "", [RunEvent.request (Endpoint.userProfile username)])
    else
      let tr := [RunEvent.request (Endpoint.userProfile username),
                 RunEvent.request (Endpoint.userEvents username)]
      if eventsResp.status = 200 then
        match scanEvents eventsResp.events email with
        | ScanRes.found e => (e, tr)
        | ScanRes.cont email2 =>
          (if truthy email2 then email2.getD "" else "Not available", tr)
      else
        ("Not available", tr)

/-- An organization record; only `login` is consumed. -/
structure Org where
  login : String
deriving DecidableEq, Repr

/-- Response to the unpaged `GET /user/orgs` call. -/
structure OrgsResponse where
  status : Nat
  orgs : List Org
  body : String
deriving DecidableEq, Repr

/-- `get_organizations` (source lines 17-27): one unpaged request; on a
non-200 status log and return the empty list. -/
def get_organizations (resp : OrgsResponse) : List Org × List RunEvent :=
  if resp.status ≠ 200 then
    ([], [RunEvent.request Endpoint.userOrgs, RunEvent.logError resp.status resp.body])
  else
    (resp.orgs, [RunEvent.request Endpoint.userOrgs])

/-- The complete remote state a report run interacts with: one response for
every request the script can issue. -/
structure World where
  orgsResp : OrgsResponse
  repoPages : String → Nat → PageResponse Repo
  collabPages : String → String → Nat → PageResponse Collaborator
  userResp : String → UserResponse
  eventsResp : String → EventsResponse

/-- The fixed CSV header row (source line 148). -/
def headerRow : List String :=
  ["Organization", "Repo Name", "User Name", "Email", "Permission"]

/-- The innermost loop body of `generate_report` (source lines 166-171):
resolve the email of the collaborator, classify the permission, write one
row. -/
def processCollaborator (w : World) (org repo : String) (c : Collaborator) :
    List RunEvent :=
  let r := get_user_email c.login (w.userResp c.login) (w.eventsResp c.login)
  r.2 ++ [RunEvent.writeRow [org, repo, c.login, r.1, get_permission_level c.permissions]]

/-- The per-repository loop body of `generate_report` (source lines
161-173): fetch collaborators, then process each in order. -/
def processRepo (w : World) (fuel : Nat) (org repo : String) : List RunEvent :=
  let r := get_collaborators_for_repo org repo (w.collabPages org repo) fuel
  r.2 ++ r.1.flatMap (processCollaborator w org repo)

/-- The per-organization loop body of `generate_report` (source lines
156-173): fetch repositories, then process each in order. -/
def processOrg (w : World) (fuel : Nat) (org : String) : List RunEvent :=
  let r := get_repos_for_org org (w.repoPages org) fuel
  r.2 ++ r.1.flatMap (fun repo => processRepo w fuel org repo.name)

/-- Organization resolution in `generate_report` (source lines 151-154):
an explicit non-empty list is used verbatim; otherwise the memberships of
the caller are fetched and their logins used. -/
def resolveOrgs (w : World) (orgNames : List String) : List String × List RunEvent :=
  if orgNames = [] then
    let r := get_organizations w.orgsResp
    (r.1.map Org.login, r.2)
  else
    (orgNames, [])

/-- `generate_report` (source lines 144-175): write the header row, resolve
the organization set, then stream one row per
(organization, repository, collaborator) tuple in nesting order.  The
result is the ordered trace of every observable action of the run. -/
def generate_report (w : World) (fuel : Nat) (orgNames : List String) :
    List RunEvent :=
  RunEvent.writeRow headerRow ::
    (let r := resolveOrgs w orgNames
     r.2 ++ r.1.flatMap (processOrg w fuel))

/-- The rows written to the CSV file, in order, extracted from a trace. -/
def rowsOf (tr : List RunEvent) : List (List String) :=
  tr.filterMap (fun e => match e with
    | RunEvent.writeRow r => some r
    | _ => none)

/-- The requests issued, in order, extracted from a trace. -/
def requestsOf (tr : List RunEvent) : List Endpoint :=
  tr.filterMap (fun e => match e with
    | RunEvent.request ep => some ep
    | _ => none)

/-! ## Specification-side helper definitions used to state the theorems -/

/-- The commits the source inspects inside one event: the commit list of
the payload when the event is a `PushEvent` with a payload, nothing
otherwise. -/
def eventCommits (ev : Event) : List Commit :=
  if ev.type = "PushEvent" then
    match ev.payload with
    | some p => p.commits.getD []
    | none => []
  else []

/-- The author email the source reads off one commit, when the commit has
an `author` with a truthy `email`. -/
def commitEmail (c : Commit) : Option String :=
  match c.author with
  | some a => if truthy a.email then some (a.email.getD "") else none
  | none => none

/-- The masked/no-reply address pattern of the source. -/
def isMasked (e : String) : Bool := strEndsWith e "noreply.github.com"

/-- All commit author emails of a timeline, in scanning order. -/
def candidateEmails (evs : List Event) : List String :=
  (evs.flatMap eventCommits).filterMap commitEmail

/-- Thread a value through a list the way the mutable `email` variable is
threaded through the scanned candidates: each element overwrites it, so
the result is the last element when the list is non-empty and the
incoming value otherwise. -/
def lastOr : List String → Option String → Option String
  | [], e₀ => e₀
  | e :: l, _ => lastOr l (some e)

/-- `pageTrace mk server p n`: the trace produced while consuming `n`
consecutive successful non-empty pages starting at page `p`: the request
for each page followed by a 60-second sleep exactly when the rate-limit
signal of that page is low. -/
def pageTrace {α : Type} (mk : Nat → RunEvent) (server : Nat → PageResponse α) :
    Nat → Nat → List RunEvent
  | _, 0 => []
  | p, n + 1 =>
    (mk p :: (if lowRate (server p) then [RunEvent.sleepFor 60] else [])) ++
      pageTrace mk server (p + 1) n

/-- `goodRun server p L`: starting at page `p` the server answers
`L.length` consecutive pages with status 200 and the non-empty item lists
recorded in `L`. -/
def goodRun {α : Type} (server : Nat → PageResponse α) (p : Nat) (L : List (List α)) : Prop :=
  ∀ i, i < L.length →
    (server (p + i)).status = 200 ∧ (server (p + i)).items = L.getD i [] ∧ L.getD i [] ≠ []

/-- A server serving the page contents `L` (1-indexed pages, empty beyond),
all with status 200 and no rate-limit header. -/
def serverOfPages {α : Type} (L : List (List α)) : Nat → PageResponse α :=
  fun p => ⟨200, L.getD (p - 1) [], "", none⟩

/-- The resolved organization names of a run. -/
def resolvedOrgNames (w : World) (orgNames : List String) : List String :=
  (resolveOrgs w orgNames).1

/-- The repositories a run fetches for one organization. -/
def reposOf (w : World) (fuel : Nat) (org : String) : List Repo :=
  (get_repos_for_org org (w.repoPages org) fuel).1

/-- The collaborators a run fetches for one repository. -/
def collabsOf (w : World) (fuel : Nat) (org repo : String) : List Collaborator :=
  (get_collaborators_for_repo org repo (w.collabPages org repo) fuel).1

/-- The data row a run writes for one collaborator. -/
def rowFor (w : World) (org repo : String) (c : Collaborator) : List String :=
  [org, repo, c.login,
   (get_user_email c.login (w.userResp c.login) (w.eventsResp c.login)).1,
   get_permission_level c.permissions]

/-- The data rows a run writes for one organization. -/
def rowsForOrg (w : World) (fuel : Nat) (org : String) : List (List String) :=
  rowsOf (processOrg w fuel org)

/-- A one-push-event timeline whose only commit author email is masked;
used to instantiate closed statements. -/
def evsMaskedOnly : List Event :=
  [Event.mk "PushEvent" (some (EventPayload.mk (some
    [Commit.mk (some (CommitAuthor.mk (some "x@users.noreply.github.com")))])))]

/-- A timeline with a masked push followed by a real-address push; the
worked example of the specification. -/
def evsMaskedThenReal : List Event :=
  [Event.mk "PushEvent" (some (EventPayload.mk (some
    [Commit.mk (some (CommitAuthor.mk (some "x@users.noreply.github.com")))]))),
   Event.mk "PushEvent" (some (EventPayload.mk (some
    [Commit.mk (some (CommitAuthor.mk (some "real@x.com")))])))]

/-- Three pages of 100, 100 and 50 repositories: a 250-item collection as
the platform serves it with page size 100. -/
def pages250 : List (List Repo) :=
  [List.replicate 100 (Repo.mk "r"), List.replicate 100 (Repo.mk "r"),
   List.replicate 50 (Repo.mk "r")]

/-- A server answering every page with one repository and a rate-limit
remaining of 5; used to instantiate closed statements. -/
def serverLow : Nat → PageResponse Repo :=
  fun _ => PageResponse.mk 200 [Repo.mk "r"] "" (some 5)

/-- A server answering every page with status 403; used to instantiate
closed statements. -/
def server403 (α : Type) : Nat → PageResponse α :=
  fun _ => PageResponse.mk 403 [] "forbidden" none

/-- A world whose every response is a failure with status 404; used to
instantiate closed statements. -/
def w404 : World where
  orgsResp := ⟨404, [], "err"⟩
  repoPages := fun _ _ => ⟨404, [], "err", none⟩
  collabPages := fun _ _ _ => ⟨404, [], "err", none⟩
  userResp := fun _ => ⟨404, none⟩
  eventsResp := fun _ => ⟨404, []⟩

/-- A world where repository listings fail only for organization `borg`,
every other organization has one repository with one Write collaborator
whose profile email resolves; used to instantiate closed statements. -/
def wABC : World where
  orgsResp := OrgsResponse.mk 200 [] ""
  repoPages := fun org p =>
    if org = "borg" then PageResponse.mk 403 [] "forbidden" none
    else if p = 1 then PageResponse.mk 200 [Repo.mk ("repo-" ++ org)] "" none
    else PageResponse.mk 200 [] "" none
  collabPages := fun _ _ p =>
    if p = 1 then
      PageResponse.mk 200
        [Collaborator.mk "uma" (Permissions.mk false false true false true)] "" none
    else PageResponse.mk 200 [] "" none
  userResp := fun _ => UserResponse.mk 200 (some "uma@x.com")
  eventsResp := fun _ => EventsResponse.mk 200 []

/-- A world with no organizations and otherwise empty successful
responses; used to instantiate closed statements. -/
def wEmpty : World where
  orgsResp := ⟨200, [], ""⟩
  repoPages := fun _ _ => ⟨200, [], "", none⟩
  collabPages := fun _ _ _ => ⟨200, [], "", none⟩
  userResp := fun _ => ⟨200, none⟩
  eventsResp := fun _ => ⟨200, []⟩

/-! ## Claim C2: permission classification -/

/-- C2: for every capability-flag set, the classifier returns the single
level selected by the fixed precedence admin > maintain > push(=Write) >
triage > pull(=Read), the first flag set winning, and returns `Unknown`
exactly when no flag is set; being a Lean function it is total and
deterministic. -/
theorem get_permission_level_precedence (p : Permissions) :
    (get_permission_level p = "Admin" ↔ p.admin = true) ∧
    (get_permission_level p = "Maintain" ↔ p.admin = false ∧ p.maintain = true) ∧
    (get_permission_level p = "Write" ↔
      p.admin = false ∧ p.maintain = false ∧ p.push = true) ∧
    (get_permission_level p = "Triage" ↔
      p.admin = false ∧ p.maintain = false ∧ p.push = false ∧ p.triage = true) ∧
    (get_permission_level p = "Read" ↔
      p.admin = false ∧ p.maintain = false ∧ p.push = false ∧ p.triage = false ∧
        p.pull = true) ∧
    (get_permission_level p = "Unknown" ↔
      p.admin = false ∧ p.maintain = false ∧ p.push = false ∧ p.triage = false ∧
        p.pull = false) := by
  rcases p with ⟨a, m, pu, t, pl⟩
  cases a <;> cases m <;> cases pu <;> cases t <;> cases pl <;> decide

/-! ## Claims C8, C9: first stage of the two-stage email resolver -/

/-- C8: when the profile lookup succeeds with a truthy (non-empty) email
field, the resolver returns that profile email and its request trace is
the profile request alone — the event timeline is never fetched. -/
theorem get_user_email_profile_hit (u : String) (pr : UserResponse)
    (er : EventsResponse) (hst : pr.status = 200) (he : truthy pr.email = true) :
    get_user_email u pr er =
      (pr.email.getD "", [RunEvent.request (Endpoint.userProfile u)]) := by
  simp [get_user_email, hst, he]

/-- Witness for C8 at a concrete profile carrying `a@x.com`. -/
theorem get_user_email_profile_hit_witness :
    (UserResponse.mk 200 (some "a@x.com")).status = 200 ∧
    truthy (UserResponse.mk 200 (some "a@x.com")).email = true ∧
    get_user_email "alice" (UserResponse.mk 200 (some "a@x.com"))
        (EventsResponse.mk 200 []) =
      ("a@x.com", [RunEvent.request (Endpoint.userProfile "alice")]) :=
  ⟨rfl, by decide,
    get_user_email_profile_hit "alice" (UserResponse.mk 200 (some "a@x.com"))
      (EventsResponse.mk 200 []) rfl (by decide)⟩

/-- C9: when the profile lookup returns a non-200 status, the resolver
returns the `Not available` sentinel and its request trace is the profile
request alone — the event-timeline request is never issued. -/
theorem get_user_email_profile_failure (u : String) (pr : UserResponse)
    (er : EventsResponse) (hst : pr.status ≠ 200) :
    get_user_email u pr er =
      ("Not available", [RunEvent.request (Endpoint.userProfile u)]) := by
  simp [get_user_email, hst]

/-- Witness for C9 at a concrete 404 profile response. -/
theorem get_user_email_profile_failure_witness :
    (UserResponse.mk 404 none).status ≠ 200 ∧
    get_user_email "bob" (UserResponse.mk 404 none)
        (EventsResponse.mk 200
          [Event.mk "PushEvent"
            (some (EventPayload.mk (some [Commit.mk (some (CommitAuthor.mk (some "b@x.com")))])))]) =
      ("Not available", [RunEvent.request (Endpoint.userProfile "bob")]) :=
  ⟨by decide,
    get_user_email_profile_failure "bob" (UserResponse.mk 404 none) _ (by decide)⟩

/-! ## Claim C1: the timeline stage of the email resolver -/

theorem lastOr_cons (e : String) (l : List String) (e₀ : Option String) :
    lastOr (e :: l) e₀ = lastOr l (some e) := rfl

theorem lastOr_append (A B : List String) (e₀ : Option String) :
    lastOr (A ++ B) e₀ = lastOr B (lastOr A e₀) := by
  induction A generalizing e₀ with
  | nil => rfl
  | cons a as ih => rw [List.cons_append, lastOr_cons, ih, lastOr_cons]

/-- `lastOr` computes the last element of the list, with the incoming
value as fallback. -/
theorem lastOr_eq_getLast? (l : List String) (e₀ : Option String) :
    lastOr l e₀ = (match l.getLast? with
      | some e => some e
      | none => e₀) := by
  induction l generalizing e₀ with
  | nil => rfl
  | cons e l ih =>
    rw [lastOr_cons, ih (some e)]
    cases l with
    | nil => rfl
    | cons b bs =>
      cases hbs : (b :: bs).getLast? with
      | some x => simp [List.getLast?_cons_cons, hbs]
      | none => simp at hbs

/-- The commit loop in closed form: it returns the first non-masked
candidate email, and otherwise leaves the `email` variable at the last
candidate seen (the incoming value when there is none). -/
theorem scanCommits_eq (cs : List Commit) : ∀ e₀ : Option String,
    scanCommits cs e₀ =
      match (cs.filterMap commitEmail).find? (fun e => !isMasked e) with
      | some e => ScanRes.found e
      | none => ScanRes.cont (lastOr (cs.filterMap commitEmail) e₀) := by
  induction cs with
  | nil => intro e₀; rfl
  | cons c cs ih =>
    intro e₀
    rcases c with ⟨author⟩
    cases author with
    | none =>
      have hc : commitEmail (Commit.mk none) = none := rfl
      simp only [scanCommits, List.filterMap_cons, hc]
      exact ih e₀
    | some a =>
      by_cases ht : truthy a.email = true
      · have hc : commitEmail (Commit.mk (some a)) = some (a.email.getD "") := by
          simp [commitEmail, ht]
        by_cases hm : strEndsWith (a.email.getD "") "noreply.github.com" = true
        · have hnm : (fun e => !isMasked e) (a.email.getD "") = false := by
            simp [isMasked, hm]
          simp only [scanCommits, ht, if_true, hm, Bool.not_true, if_false,
            List.filterMap_cons, hc]
          rw [ih (some (a.email.getD ""))]
          cases hfind : (cs.filterMap commitEmail).find? (fun e => !isMasked e) <;>
            simp [List.find?_cons_of_neg, hnm, hfind, lastOr_cons]
        · have hnm : (fun e => !isMasked e) (a.email.getD "") = true := by
            simp [isMasked, hm]
          simp only [scanCommits, ht, if_true, List.filterMap_cons, hc]
          rw [if_pos (by simpa [isMasked] using hm)]
          simp [List.find?_cons_of_pos, hnm]
      · have hc : commitEmail (Commit.mk (some a)) = none := by
          simp [commitEmail, ht]
        simp only [scanCommits, ht, if_false, List.filterMap_cons, hc]
        simp only [Bool.false_eq_true, if_false]
        exact ih e₀

/-- The event loop in closed form over the candidate-email sequence. -/
theorem scanEvents_eq (evs : List Event) : ∀ e₀ : Option String,
    scanEvents evs e₀ =
      match (candidateEmails evs).find? (fun e => !isMasked e) with
      | some e => ScanRes.found e
      | none => ScanRes.cont (lastOr (candidateEmails evs) e₀) := by
  induction evs with
  | nil => intro e₀; rfl
  | cons ev evs ih =>
    intro e₀
    have hcand : candidateEmails (ev :: evs) =
        (eventCommits ev).filterMap commitEmail ++ candidateEmails evs := by
      simp [candidateEmails, List.flatMap_cons, List.filterMap_append]
    by_cases hty : ev.type = "PushEvent"
    · cases hp : ev.payload with
      | none =>
        have hec : eventCommits ev = [] := by simp [eventCommits, hty, hp]
        have hl : scanEvents (ev :: evs) e₀ = scanEvents evs e₀ := by
          simp [scanEvents, hty, hp]
        rw [hl, hcand, hec]
        simpa using ih e₀
      | some p =>
        have hec : eventCommits ev = p.commits.getD [] := by
          simp [eventCommits, hty, hp]
        have hl : scanEvents (ev :: evs) e₀ =
            match scanCommits (p.commits.getD []) e₀ with
            | ScanRes.found e => ScanRes.found e
            | ScanRes.cont e₂ => scanEvents evs e₂ := by
          simp [scanEvents, hty, hp]
        have hsc := scanCommits_eq (p.commits.getD []) e₀
        cases hA : ((p.commits.getD []).filterMap commitEmail).find?
            (fun e => !isMasked e) with
        | some e =>
          rw [hA] at hsc
          rw [hl, hsc, hcand, hec]
          simp [List.find?_append, hA]
        | none =>
          rw [hA] at hsc
          rw [hl, hsc]
          show scanEvents evs
              (lastOr ((p.commits.getD []).filterMap commitEmail) e₀) = _
          rw [ih, hcand, hec]
          cases hB : (candidateEmails evs).find? (fun e => !isMasked e) <;>
            simp [List.find?_append, hA, hB, lastOr_append]
    · have hec : eventCommits ev = [] := by simp [eventCommits, hty]
      have hl : scanEvents (ev :: evs) e₀ = scanEvents evs e₀ := by
        simp [scanEvents, hty]
      rw [hl, hcand, hec]
      simpa using ih e₀

/-- A recorded candidate email is a non-empty string (Python truthiness
was checked before it was recorded). -/
theorem commitEmail_ne_empty (c : Commit) (e : String)
    (h : commitEmail c = some e) : e ≠ "" := by
  rcases c with ⟨author⟩
  cases author with
  | none => simp [commitEmail] at h
  | some a =>
    cases ha : a.email with
    | none => simp [commitEmail, truthy, ha] at h
    | some s =>
      rcases eq_or_ne s "" with hs | hs
      · subst hs; simp [commitEmail, truthy, ha] at h
      · simp [commitEmail, truthy, ha, hs] at h
        exact h ▸ hs

/-- Every candidate email of a timeline is a non-empty string. -/
theorem candidateEmails_ne_empty_mem (evs : List Event) :
    ∀ e ∈ candidateEmails evs, e ≠ "" := by
  intro e he
  simp only [candidateEmails, List.mem_filterMap] at he
  obtain ⟨c, _, hce⟩ := he
  exact commitEmail_ne_empty c e hce

/-- Counterexample to C1 as stated: with an empty profile email and a
timeline whose only commit author email is masked, no candidate qualifies,
yet the resolver returns that masked address rather than the
`Not available` sentinel (the `email` variable retains the last masked
address scanned). -/
theorem get_user_email_sentinel_cex :
    (candidateEmails evsMaskedOnly).find? (fun e => !isMasked e) = none ∧
    (get_user_email "carol" (UserResponse.mk 200 none)
        (EventsResponse.mk 200 evsMaskedOnly)).1 = "x@users.noreply.github.com" ∧
    (get_user_email "carol" (UserResponse.mk 200 none)
        (EventsResponse.mk 200 evsMaskedOnly)).1 ≠ "Not available" := by
  refine ⟨by decide, by decide, by decide⟩

/-- C1 as amended: when the profile lookup succeeds with a falsy email
field and the timeline fetch succeeds, the resolver returns the first
commit author email (in timeline order) not matching the masked pattern;
when none qualifies it returns the last commit author email seen (a masked
one) if the timeline contains any commit author email at all, and the
`Not available` sentinel only when it contains none. -/
theorem get_user_email_timeline (u : String) (pr : UserResponse)
    (er : EventsResponse) (hst : pr.status = 200) (he : truthy pr.email = false)
    (hev : er.status = 200) :
    (get_user_email u pr er).1 =
      (match (candidateEmails er.events).find? (fun e => !isMasked e) with
       | some e => e
       | none =>
         match (candidateEmails er.events).getLast? with
         | some e => e
         | none => "Not available") := by
  have hsc := scanEvents_eq er.events pr.email
  cases hfind : (candidateEmails er.events).find? (fun e => !isMasked e) with
  | some e =>
    rw [hfind] at hsc
    simp [get_user_email, hst, he, hev, hsc]
  | none =>
    rw [hfind] at hsc
    cases hlast : (candidateEmails er.events).getLast? with
    | some e =>
      have hmem := candidateEmails_ne_empty_mem er.events e
        (List.mem_of_getLast?_eq_some hlast)
      have hlo : lastOr (candidateEmails er.events) pr.email = some e := by
        rw [lastOr_eq_getLast?, hlast]
      rw [hlo] at hsc
      have htr : truthy (some e) = true := by simp [truthy, hmem]
      simp [get_user_email, hst, he, hev, hsc, htr]
    | none =>
      have hlo : lastOr (candidateEmails er.events) pr.email = pr.email := by
        rw [lastOr_eq_getLast?, hlast]
      rw [hlo] at hsc
      simp [get_user_email, hst, he, hev, hsc]

/-- Witness for the amended C1 at the worked example of the specification
(masked push then real push): the resolver returns `real@x.com`. -/
theorem get_user_email_timeline_witness :
    (UserResponse.mk 200 none).status = 200 ∧
    truthy (UserResponse.mk 200 none).email = false ∧
    (EventsResponse.mk 200 evsMaskedThenReal).status = 200 ∧
    (get_user_email "dave" (UserResponse.mk 200 none)
        (EventsResponse.mk 200 evsMaskedThenReal)).1 =
      (match (candidateEmails evsMaskedThenReal).find? (fun e => !isMasked e) with
       | some e => e
       | none =>
         match (candidateEmails evsMaskedThenReal).getLast? with
         | some e => e
         | none => "Not available") ∧
    (get_user_email "dave" (UserResponse.mk 200 none)
        (EventsResponse.mk 200 evsMaskedThenReal)).1 = "real@x.com" :=
  ⟨rfl, by decide, rfl,
    get_user_email_timeline "dave" (UserResponse.mk 200 none)
      (EventsResponse.mk 200 evsMaskedThenReal) rfl (by decide) rfl,
    by decide⟩

/-! ## Claims C3, C4, C6: pagination, fail-soft errors, rate-limit backoff -/

/-- With fuel available, the trace of the loop body opens with the request
for its own page. -/
theorem fetchLoop_trace_head {α : Type} (mk : Nat → RunEvent)
    (server : Nat → PageResponse α) (fuel page : Nat) (acc : List α) :
    ∃ rest, (fetchLoop mk server (fuel + 1) page acc).2 = mk page :: rest := by
  simp only [fetchLoop]
  split
  · exact ⟨_, rfl⟩
  · split
    · exact ⟨_, rfl⟩
    · exact ⟨_, rfl⟩

/-- Consuming a block of successful non-empty pages: the loop reaches the
page just after the block carrying all items of the block in order, and
its trace is the requests of the block (with their conditional sleeps)
followed by
the rest of the run. -/
theorem fetchLoop_run {α : Type} (mk : Nat → RunEvent) (server : Nat → PageResponse α)
    (L : List (List α)) : ∀ (p fuel : Nat) (acc : List α), goodRun server p L →
    fetchLoop mk server (fuel + L.length) p acc =
      ((fetchLoop mk server fuel (p + L.length) (acc ++ L.flatten)).1,
       pageTrace mk server p L.length ++
         (fetchLoop mk server fuel (p + L.length) (acc ++ L.flatten)).2) := by
  induction L with
  | nil =>
    intro p fuel acc _
    simp [pageTrace]
  | cons hd tl ih =>
    intro p fuel acc hgood
    have h0 := hgood 0 (Nat.succ_pos _)
    rw [Nat.add_zero] at h0
    obtain ⟨hst, hit, hne⟩ := h0
    simp only [List.getD_cons_zero] at hit hne
    have hgood2 : goodRun server (p + 1) tl := by
      intro i hi
      have h := hgood (i + 1) (by simpa using Nat.succ_lt_succ hi)
      have hpp : p + (i + 1) = p + 1 + i := by omega
      rw [hpp] at h
      simpa using h
    have hlen : fuel + (hd :: tl).length = (fuel + tl.length) + 1 := by
      simp [List.length_cons]
      omega
    rw [hlen, fetchLoop]
    simp only [hst, hit, ne_eq, not_true_eq_false, if_false, ite_false,
      reduceIte, List.isEmpty_iff, hne]
    rw [ih (p + 1) fuel (acc ++ hd) hgood2]
    have hp1 : p + 1 + tl.length = p + (hd :: tl).length := by
      simp [List.length_cons]
      omega
    have hacc : acc ++ hd ++ tl.flatten = acc ++ (hd :: tl).flatten := by
      simp [List.flatten, List.append_assoc]
    have htr : pageTrace mk server p (hd :: tl).length =
        (mk p :: (if lowRate (server p) then [RunEvent.sleepFor 60] else [])) ++
          pageTrace mk server (p + 1) tl.length := by
      simp [pageTrace, List.length_cons]
    rw [hp1, hacc, htr]
    simp [List.append_assoc]

/-- Requests extracted from a block trace: one request per page of the
block, in page order, none repeated (the sleeps contribute nothing). -/
theorem requestsOf_pageTrace {α : Type} (f : Nat → Endpoint)
    (server : Nat → PageResponse α) :
    ∀ (n p : Nat), requestsOf (pageTrace (fun q => RunEvent.request (f q)) server p n) =
      (List.range n).map (fun i => f (p + i)) := by
  intro n
  induction n with
  | zero => intro p; rfl
  | succ m ih =>
    intro p
    rw [List.range_succ_eq_map]
    simp only [pageTrace, requestsOf, List.filterMap_append, List.filterMap_cons]
    rw [show List.filterMap
        (fun e => match e with
          | RunEvent.request ep => some ep
          | _ => none)
        (if lowRate (server p) then [RunEvent.sleepFor 60] else []) = [] from by
      split <;> rfl]
    have := ih (p + 1)
    simp only [requestsOf] at this
    simp [this, List.map_map, Function.comp]
    intro a _
    congr 1
    omega

/-- A fetch over a block of non-empty pages followed by an empty page:
the result is the concatenation of the block and the requests are pages
`1, …, blockLength + 1` — the loop halts only after requesting the first
empty page. -/
theorem fetchLoop_complete {α : Type} (f : Nat → Endpoint)
    (server : Nat → PageResponse α) (L : List (List α)) (fuel : Nat)
    (hgood : goodRun server 1 L)
    (hst : (server (1 + L.length)).status = 200)
    (hit : (server (1 + L.length)).items = [])
    (hfuel : L.length < fuel) :
    (fetchLoop (fun p => RunEvent.request (f p)) server fuel 1 []).1 = L.flatten ∧
    requestsOf (fetchLoop (fun p => RunEvent.request (f p)) server fuel 1 []).2 =
      (List.range (L.length + 1)).map (fun i => f (1 + i)) := by
  obtain ⟨k, rfl⟩ : ∃ k, fuel = (k + 1) + L.length := ⟨fuel - L.length - 1, by omega⟩
  have hterm : fetchLoop (fun p => RunEvent.request (f p)) server (k + 1)
      (1 + L.length) ([] ++ L.flatten) =
      ([] ++ L.flatten, [RunEvent.request (f (1 + L.length))]) := by
    rw [fetchLoop]
    simp [hst, hit]
  rw [fetchLoop_run (fun p => RunEvent.request (f p)) server L 1 (k + 1) [] hgood, hterm]
  constructor
  · simp
  · simp only [requestsOf, List.filterMap_append]
    have h1 := requestsOf_pageTrace f server L.length 1
    simp only [requestsOf] at h1
    rw [h1, List.range_succ]
    simp

/-- A fetch over a block of non-empty pages followed by a page answered
with a non-200 status: the result is exactly the items of the block, the
trace ends with the request for that page and one log entry carrying the
status and
body, and no page is requested twice. -/
theorem fetchLoop_error {α : Type} (f : Nat → Endpoint)
    (server : Nat → PageResponse α) (L : List (List α)) (fuel : Nat)
    (hgood : goodRun server 1 L)
    (hst : (server (1 + L.length)).status ≠ 200)
    (hfuel : L.length < fuel) :
    (fetchLoop (fun p => RunEvent.request (f p)) server fuel 1 []).1 = L.flatten ∧
    (fetchLoop (fun p => RunEvent.request (f p)) server fuel 1 []).2 =
      pageTrace (fun p => RunEvent.request (f p)) server 1 L.length ++
        [RunEvent.request (f (1 + L.length)),
         RunEvent.logError (server (1 + L.length)).status (server (1 + L.length)).body] ∧
    requestsOf (fetchLoop (fun p => RunEvent.request (f p)) server fuel 1 []).2 =
      (List.range (L.length + 1)).map (fun i => f (1 + i)) := by
  obtain ⟨k, rfl⟩ : ∃ k, fuel = (k + 1) + L.length := ⟨fuel - L.length - 1, by omega⟩
  have hterm : fetchLoop (fun p => RunEvent.request (f p)) server (k + 1)
      (1 + L.length) ([] ++ L.flatten) =
      ([] ++ L.flatten,
       [RunEvent.request (f (1 + L.length)),
        RunEvent.logError (server (1 + L.length)).status (server (1 + L.length)).body]) := by
    rw [fetchLoop]
    simp [hst]
  rw [fetchLoop_run (fun p => RunEvent.request (f p)) server L 1 (k + 1) [] hgood, hterm]
  refine ⟨by simp, by simp, ?_⟩
  simp only [requestsOf, List.filterMap_append]
  have h1 := requestsOf_pageTrace f server L.length 1
  simp only [requestsOf] at h1
  rw [h1, List.range_succ]
  simp

set_option maxRecDepth 8000 in
/-- Counterexample to the request count in C3: on a 250-item repository
collection served as pages of 100, 100 and 50 items, the loop aggregates
all 250 items but issues 4 requests, not 3 — it must request the first
empty page (page 4) to detect the end of the collection. -/
theorem pagination_three_requests_cex :
    ((get_repos_for_org "acme" (serverOfPages pages250) 10).1).length = 250 ∧
    (requestsOf (get_repos_for_org "acme" (serverOfPages pages250) 10).2).length = 4 ∧
    (requestsOf (get_repos_for_org "acme" (serverOfPages pages250) 10).2).length ≠ 3 :=
  ⟨by decide, by decide, by decide⟩

/-- C3 as amended: for both paginated endpoints, requests go out with
fixed page size 100 for pages 1, 2, …, the loop halts exactly at the first
page whose item list is empty, and the result is the concatenation of all
prior pages in order; a collection served as `n` non-empty pages takes
exactly `n + 1` requests (so a 250-item collection takes 4, not 3). -/
theorem pagination_round_trip (org repo : String)
    (rserver : Nat → PageResponse Repo) (cserver : Nat → PageResponse Collaborator)
    (LR : List (List Repo)) (LC : List (List Collaborator)) (fuelR fuelC : Nat)
    (hgoodR : goodRun rserver 1 LR)
    (hstR : (rserver (1 + LR.length)).status = 200)
    (hitR : (rserver (1 + LR.length)).items = [])
    (hfuelR : LR.length < fuelR)
    (hgoodC : goodRun cserver 1 LC)
    (hstC : (cserver (1 + LC.length)).status = 200)
    (hitC : (cserver (1 + LC.length)).items = [])
    (hfuelC : LC.length < fuelC) :
    (get_repos_for_org org rserver fuelR).1 = LR.flatten ∧
    requestsOf (get_repos_for_org org rserver fuelR).2 =
      (List.range (LR.length + 1)).map (fun i => Endpoint.orgRepos org (1 + i) 100) ∧
    (get_collaborators_for_repo org repo cserver fuelC).1 = LC.flatten ∧
    requestsOf (get_collaborators_for_repo org repo cserver fuelC).2 =
      (List.range (LC.length + 1)).map
        (fun i => Endpoint.repoCollaborators org repo (1 + i) 100 "all") := by
  obtain ⟨h1, h2⟩ := fetchLoop_complete (fun p => Endpoint.orgRepos org p 100)
    rserver LR fuelR hgoodR hstR hitR hfuelR
  obtain ⟨h3, h4⟩ := fetchLoop_complete
    (fun p => Endpoint.repoCollaborators org repo p 100 "all")
    cserver LC fuelC hgoodC hstC hitC hfuelC
  exact ⟨h1, h2, h3, h4⟩

set_option maxRecDepth 8000 in
/-- Witness for the amended C3: the 250-item collection, empty
collaborator collection; 250 items aggregated over 4 requests. -/
theorem pagination_round_trip_witness :
    goodRun (serverOfPages pages250) 1 pages250 ∧
    (serverOfPages pages250 (1 + pages250.length)).status = 200 ∧
    (serverOfPages pages250 (1 + pages250.length)).items = [] ∧
    pages250.length < 10 ∧
    goodRun (serverOfPages ([] : List (List Collaborator))) 1 [] ∧
    (serverOfPages ([] : List (List Collaborator)) (1 + ([] : List (List Collaborator)).length)).status = 200 ∧
    (serverOfPages ([] : List (List Collaborator)) (1 + ([] : List (List Collaborator)).length)).items = [] ∧
    ([] : List (List Collaborator)).length < 1 ∧
    ((get_repos_for_org "acme" (serverOfPages pages250) 10).1 = pages250.flatten ∧
     requestsOf (get_repos_for_org "acme" (serverOfPages pages250) 10).2 =
       (List.range (pages250.length + 1)).map (fun i => Endpoint.orgRepos "acme" (1 + i) 100) ∧
     (get_collaborators_for_repo "acme" "widget"
         (serverOfPages ([] : List (List Collaborator))) 1).1 =
       ([] : List (List Collaborator)).flatten ∧
     requestsOf (get_collaborators_for_repo "acme" "widget"
         (serverOfPages ([] : List (List Collaborator))) 1).2 =
       (List.range (([] : List (List Collaborator)).length + 1)).map
         (fun i => Endpoint.repoCollaborators "acme" "widget" (1 + i) 100 "all")) ∧
    ((get_repos_for_org "acme" (serverOfPages pages250) 10).1).length = 250 := by
  have hgoodR : goodRun (serverOfPages pages250) 1 pages250 := by
    intro i hi
    have hi3 : i < 3 := by simpa [pages250] using hi
    interval_cases i <;> exact ⟨rfl, rfl, by decide⟩
  have hgoodC : goodRun (serverOfPages ([] : List (List Collaborator))) 1 [] := by
    intro i hi
    exact absurd hi (Nat.not_lt_zero i)
  refine ⟨hgoodR, rfl, rfl, by decide, hgoodC, rfl, rfl, by decide, ?_, by decide⟩
  exact pagination_round_trip "acme" "widget" (serverOfPages pages250)
    (serverOfPages ([] : List (List Collaborator))) pages250 [] 10 1
    hgoodR rfl rfl (by decide) hgoodC rfl rfl (by decide)

/-- C4: for both paginated listings, a non-200 status on any page makes
the fetch log the status and response body and return exactly the items
accumulated from the prior pages (the empty list when the first page
fails); the function returns normally (no exception in the model) and each
page is requested exactly once (no retry). -/
theorem pagination_fail_soft (org repo : String)
    (rserver : Nat → PageResponse Repo) (cserver : Nat → PageResponse Collaborator)
    (LR : List (List Repo)) (LC : List (List Collaborator)) (fuelR fuelC : Nat)
    (hgoodR : goodRun rserver 1 LR)
    (hstR : (rserver (1 + LR.length)).status ≠ 200)
    (hfuelR : LR.length < fuelR)
    (hgoodC : goodRun cserver 1 LC)
    (hstC : (cserver (1 + LC.length)).status ≠ 200)
    (hfuelC : LC.length < fuelC) :
    ((get_repos_for_org org rserver fuelR).1 = LR.flatten ∧
     (get_repos_for_org org rserver fuelR).2 =
       pageTrace (fun p => RunEvent.request (Endpoint.orgRepos org p 100))
           rserver 1 LR.length ++
         [RunEvent.request (Endpoint.orgRepos org (1 + LR.length) 100),
          RunEvent.logError (rserver (1 + LR.length)).status
            (rserver (1 + LR.length)).body] ∧
     requestsOf (get_repos_for_org org rserver fuelR).2 =
       (List.range (LR.length + 1)).map (fun i => Endpoint.orgRepos org (1 + i) 100)) ∧
    ((get_collaborators_for_repo org repo cserver fuelC).1 = LC.flatten ∧
     (get_collaborators_for_repo org repo cserver fuelC).2 =
       pageTrace (fun p => RunEvent.request
           (Endpoint.repoCollaborators org repo p 100 "all")) cserver 1 LC.length ++
         [RunEvent.request (Endpoint.repoCollaborators org repo (1 + LC.length) 100 "all"),
          RunEvent.logError (cserver (1 + LC.length)).status
            (cserver (1 + LC.length)).body] ∧
     requestsOf (get_collaborators_for_repo org repo cserver fuelC).2 =
       (List.range (LC.length + 1)).map
         (fun i => Endpoint.repoCollaborators org repo (1 + i) 100 "all")) :=
  ⟨fetchLoop_error (fun p => Endpoint.orgRepos org p 100) rserver LR fuelR
     hgoodR hstR hfuelR,
   fetchLoop_error (fun p => Endpoint.repoCollaborators org repo p 100 "all")
     cserver LC fuelC hgoodC hstC hfuelC⟩

/-- Witness for C4: both listings fail on their first page with a 403;
each returns the empty list after one request and one log entry. -/
theorem pagination_fail_soft_witness :
    goodRun (server403 Repo) 1 [] ∧
    (server403 Repo (1 + ([] : List (List Repo)).length)).status ≠ 200 ∧
    ([] : List (List Repo)).length < 1 ∧
    goodRun (server403 Collaborator) 1 [] ∧
    (server403 Collaborator (1 + ([] : List (List Collaborator)).length)).status ≠ 200 ∧
    ([] : List (List Collaborator)).length < 1 ∧
    (((get_repos_for_org "acme" (server403 Repo) 1).1 = ([] : List (List Repo)).flatten ∧
      (get_repos_for_org "acme" (server403 Repo) 1).2 =
        pageTrace (fun p => RunEvent.request (Endpoint.orgRepos "acme" p 100))
            (server403 Repo) 1 ([] : List (List Repo)).length ++
          [RunEvent.request (Endpoint.orgRepos "acme" (1 + ([] : List (List Repo)).length) 100),
           RunEvent.logError (server403 Repo (1 + ([] : List (List Repo)).length)).status
             (server403 Repo (1 + ([] : List (List Repo)).length)).body] ∧
      requestsOf (get_repos_for_org "acme" (server403 Repo) 1).2 =
        (List.range (([] : List (List Repo)).length + 1)).map
          (fun i => Endpoint.orgRepos "acme" (1 + i) 100)) ∧
     ((get_collaborators_for_repo "acme" "widget" (server403 Collaborator) 1).1 =
        ([] : List (List Collaborator)).flatten ∧
      (get_collaborators_for_repo "acme" "widget" (server403 Collaborator) 1).2 =
        pageTrace (fun p => RunEvent.request
            (Endpoint.repoCollaborators "acme" "widget" p 100 "all"))
            (server403 Collaborator) 1 ([] : List (List Collaborator)).length ++
          [RunEvent.request (Endpoint.repoCollaborators "acme" "widget"
             (1 + ([] : List (List Collaborator)).length) 100 "all"),
           RunEvent.logError
             (server403 Collaborator (1 + ([] : List (List Collaborator)).length)).status
             (server403 Collaborator (1 + ([] : List (List Collaborator)).length)).body] ∧
      requestsOf (get_collaborators_for_repo "acme" "widget" (server403 Collaborator) 1).2 =
        (List.range (([] : List (List Collaborator)).length + 1)).map
          (fun i => Endpoint.repoCollaborators "acme" "widget" (1 + i) 100 "all"))) := by
  have hgR : goodRun (server403 Repo) 1 [] := by
    intro i hi
    exact absurd hi (Nat.not_lt_zero i)
  have hgC : goodRun (server403 Collaborator) 1 [] := by
    intro i hi
    exact absurd hi (Nat.not_lt_zero i)
  exact ⟨hgR, by decide, by decide, hgC, by decide, by decide,
    pagination_fail_soft "acme" "widget" (server403 Repo) (server403 Collaborator)
      [] [] 1 1 hgR (by decide) (by decide) hgC (by decide) (by decide)⟩

/-- C6: after any successful non-empty page, the very next trace entries
are, in order, a 60-second sleep exactly when the rate-limit signal of
the page is present and below 10, then the request for the next page; the
low-rate test holds precisely when the remaining counter exists and is
below 10. -/
theorem rate_limit_backoff {α : Type} (mk : Nat → RunEvent)
    (server : Nat → PageResponse α) (fuel page : Nat) (acc : List α)
    (hst : (server page).status = 200) (hne : (server page).items ≠ []) :
    (∃ rest, (fetchLoop mk server (fuel + 2) page acc).2 =
        mk page :: ((if lowRate (server page) then [RunEvent.sleepFor 60] else []) ++
          (mk (page + 1) :: rest))) ∧
    (lowRate (server page) = true ↔
      ∃ n, (server page).rateRemaining = some n ∧ n < 10) := by
  constructor
  · obtain ⟨rest, hrest⟩ :=
      fetchLoop_trace_head mk server fuel (page + 1) (acc ++ (server page).items)
    refine ⟨rest, ?_⟩
    rw [show fuel + 2 = (fuel + 1) + 1 from rfl, fetchLoop]
    simp [hst, List.isEmpty_iff, hne, hrest]
  · unfold lowRate
    cases h : (server page).rateRemaining with
    | none => simp
    | some n => simp

/-- Witness for C6 at a server reporting 5 remaining requests: the sleep
occurs between the two requests. -/
theorem rate_limit_backoff_witness :
    (serverLow 1).status = 200 ∧
    (serverLow 1).items ≠ [] ∧
    ((∃ rest, (fetchLoop (fun p => RunEvent.request (Endpoint.orgRepos "acme" p 100))
          serverLow (0 + 2) 1 []).2 =
        RunEvent.request (Endpoint.orgRepos "acme" 1 100) ::
          ((if lowRate (serverLow 1) then [RunEvent.sleepFor 60] else []) ++
            (RunEvent.request (Endpoint.orgRepos "acme" (1 + 1) 100) :: rest))) ∧
     (lowRate (serverLow 1) = true ↔
      ∃ n, (serverLow 1).rateRemaining = some n ∧ n < 10)) :=
  ⟨rfl, by decide,
    rate_limit_backoff (fun p => RunEvent.request (Endpoint.orgRepos "acme" p 100))
      serverLow 0 1 [] rfl (by decide)⟩

/-! ## Claims C5, C7, C10: the report orchestration -/

theorem rowsOf_writeRow_cons (r : List String) (tr : List RunEvent) :
    rowsOf (RunEvent.writeRow r :: tr) = r :: rowsOf tr := by
  simp [rowsOf]

theorem rowsOf_append (t1 t2 : List RunEvent) :
    rowsOf (t1 ++ t2) = rowsOf t1 ++ rowsOf t2 := by
  simp [rowsOf, List.filterMap_append]

theorem rowsOf_flatMap {β : Type} (l : List β) (g : β → List RunEvent) :
    rowsOf (l.flatMap g) = l.flatMap (fun b => rowsOf (g b)) := by
  induction l with
  | nil => rfl
  | cons b bs ih => simp [List.flatMap_cons, rowsOf_append, ih]

theorem flatMap_single {β γ : Type} (l : List β) (f : β → γ) :
    l.flatMap (fun b => [f b]) = l.map f := by
  induction l with
  | nil => rfl
  | cons b bs ih => simp [List.flatMap_cons, ih]

/-- A pagination trace contains no row writes. -/
theorem rowsOf_fetchLoop {α : Type} (f : Nat → Endpoint)
    (server : Nat → PageResponse α) :
    ∀ (fuel page : Nat) (acc : List α),
      rowsOf (fetchLoop (fun p => RunEvent.request (f p)) server fuel page acc).2 = [] := by
  intro fuel
  induction fuel with
  | zero => intro page acc; rfl
  | succ n ih =>
    intro page acc
    by_cases h1 : (server page).status ≠ 200
    · simp [fetchLoop, h1, rowsOf]
    · by_cases h2 : (server page).items.isEmpty
      · simp [fetchLoop, h1, h2, rowsOf]
      · cases h3 : lowRate (server page) <;>
          simp [fetchLoop, h1, h2, h3, rowsOf, List.filterMap_append] <;>
          simpa [rowsOf] using ih (page + 1) (acc ++ (server page).items)

theorem rowsOf_get_repos (org : String) (server : Nat → PageResponse Repo)
    (fuel : Nat) : rowsOf (get_repos_for_org org server fuel).2 = [] :=
  rowsOf_fetchLoop (fun p => Endpoint.orgRepos org p 100) server fuel 1 []

theorem rowsOf_get_collaborators (org repo : String)
    (server : Nat → PageResponse Collaborator) (fuel : Nat) :
    rowsOf (get_collaborators_for_repo org repo server fuel).2 = [] :=
  rowsOf_fetchLoop (fun p => Endpoint.repoCollaborators org repo p 100 "all")
    server fuel 1 []

/-- The trace of the email resolver contains no row writes. -/
theorem rowsOf_get_user_email (u : String) (pr : UserResponse)
    (er : EventsResponse) : rowsOf (get_user_email u pr er).2 = [] := by
  by_cases h1 : pr.status ≠ 200
  · simp [get_user_email, h1, rowsOf]
  · by_cases h2 : truthy pr.email
    · simp [get_user_email, h1, h2, rowsOf]
    · by_cases h3 : er.status = 200
      · cases hsc : scanEvents er.events pr.email <;>
          simp [get_user_email, h1, h2, h3, hsc, rowsOf]
      · simp [get_user_email, h1, h2, h3, rowsOf]

theorem rowsOf_processCollaborator (w : World) (org repo : String)
    (c : Collaborator) :
    rowsOf (processCollaborator w org repo c) = [rowFor w org repo c] := by
  simp only [processCollaborator, rowsOf_append, rowsOf_get_user_email,
    rowsOf_writeRow_cons]
  simp [rowFor, rowsOf]

theorem rowsOf_processRepo (w : World) (fuel : Nat) (org repo : String) :
    rowsOf (processRepo w fuel org repo) =
      (collabsOf w fuel org repo).map (rowFor w org repo) := by
  simp [processRepo, rowsOf_append, rowsOf_flatMap, rowsOf_processCollaborator,
    rowsOf_get_collaborators, collabsOf, flatMap_single]

theorem rowsOf_processOrg (w : World) (fuel : Nat) (org : String) :
    rowsOf (processOrg w fuel org) =
      (reposOf w fuel org).flatMap (fun repo =>
        (collabsOf w fuel org repo.name).map (rowFor w org repo.name)) := by
  simp [processOrg, rowsOf_append, rowsOf_flatMap, rowsOf_processRepo,
    rowsOf_get_repos, reposOf]

/-- Organization resolution writes no rows. -/
theorem rowsOf_resolveOrgs (w : World) (orgNames : List String) :
    rowsOf (resolveOrgs w orgNames).2 = [] := by
  by_cases h : orgNames = [] <;>
    by_cases h2 : w.orgsResp.status ≠ 200 <;>
      simp [resolveOrgs, get_organizations, h, h2, rowsOf]

/-- C7: the written rows are exactly the header followed by one data row
per (organization, repository, collaborator) tuple, in strict nesting
order matching the fetched collections. -/
theorem report_structure (w : World) (fuel : Nat) (orgNames : List String) :
    rowsOf (generate_report w fuel orgNames) =
      headerRow :: (resolvedOrgNames w orgNames).flatMap (fun org =>
        (reposOf w fuel org).flatMap (fun repo =>
          (collabsOf w fuel org repo.name).map (rowFor w org repo.name))) := by
  simp only [generate_report, rowsOf_writeRow_cons, rowsOf_append, rowsOf_flatMap,
    rowsOf_processOrg, rowsOf_resolveOrgs, resolvedOrgNames, List.nil_append]

/-- C5: with organizations A, B, C in that order and a non-200 repository
listing for B, the output is the header, then exactly the rows for A,
then exactly the rows for C: the rows for A are unaffected and C is still
processed. -/
theorem org_failure_scoped (w : World) (fuel : Nat) (A B C : String)
    (hB : (w.repoPages B 1).status ≠ 200) :
    rowsOf (generate_report w fuel [A, B, C]) =
      headerRow :: (rowsForOrg w fuel A ++ rowsForOrg w fuel C) := by
  have hBempty : (get_repos_for_org B (w.repoPages B) fuel).1 = [] := by
    cases fuel with
    | zero => rfl
    | succ n => simp [get_repos_for_org, fetchLoop, hB]
  have hBrows : rowsOf (processOrg w fuel B) = [] := by
    rw [rowsOf_processOrg]
    simp [reposOf, hBempty]
  have hres : resolveOrgs w [A, B, C] = ([A, B, C], []) := by
    simp [resolveOrgs]
  simp only [generate_report, hres, rowsOf_writeRow_cons, List.nil_append]
  simp [rowsOf_append, rowsOf_flatMap, hBrows, rowsForOrg]

/-- Witness for C5: a concrete world where the listing for B fails with
403 and A and C each contribute one row; the B failure leaves the rows of
A and C in place, and the full output evaluates to header, A-row, C-row. -/
theorem org_failure_scoped_witness :
    (wABC.repoPages "borg" 1).status ≠ 200 ∧
    rowsOf (generate_report wABC 3 ["aorg", "borg", "corg"]) =
      headerRow :: (rowsForOrg wABC 3 "aorg" ++ rowsForOrg wABC 3 "corg") ∧
    rowsOf (generate_report wABC 3 ["aorg", "borg", "corg"]) =
      [headerRow,
       ["aorg", "repo-aorg", "uma", "uma@x.com", "Write"],
       ["corg", "repo-corg", "uma", "uma@x.com", "Write"]] :=
  ⟨by decide,
   org_failure_scoped wABC 3 "aorg" "borg" "corg" (by decide),
   by decide⟩

/-- C10: the very first action of every run is writing the header row (so
the
header precedes every network request), and a run whose resolved
organization set is empty writes exactly the header row and no data row. -/
theorem report_header_first (w : World) (fuel : Nat) (orgNames : List String) :
    (∃ rest, generate_report w fuel orgNames = RunEvent.writeRow headerRow :: rest) ∧
    (resolvedOrgNames w orgNames = [] →
      rowsOf (generate_report w fuel orgNames) = [headerRow]) := by
  constructor
  · exact ⟨_, rfl⟩
  · intro hempty
    simp only [resolvedOrgNames] at hempty
    simp only [generate_report, hempty, rowsOf_writeRow_cons, List.flatMap_nil]
    simp [rowsOf_append, rowsOf_resolveOrgs]

/-- Witness for C10 at a world whose membership listing returns no
organizations: the output is exactly the header row. -/
theorem report_header_first_witness :
    resolvedOrgNames wEmpty [] = [] ∧
    (∃ rest, generate_report wEmpty 3 [] = RunEvent.writeRow headerRow :: rest) ∧
    rowsOf (generate_report wEmpty 3 []) = [headerRow] :=
  ⟨rfl, (report_header_first wEmpty 3 []).1, (report_header_first wEmpty 3 []).2 rfl⟩

end GithubReport
